import Mathlib

/-!
# pxr/base/lib/arch/systemInfo.cpp

A shallow embedding of the four host queries `ArchGetCwd`, `ArchGetHomeDirectory`,
`ArchGetUserName` and `ArchGetExecutablePath`.

* A `char*` is a list of bytes (`List Char`, one `Char` per C `char`), implicitly
  followed by a terminator; converting it to a `std::string` (`cstr`) keeps
  the bytes before the first NUL.
* The operating system is a record of oracles (`Host`), one per libc call the file
  makes.  The functions are pure in the host and return, next to their result, the
  list of calls and warnings they performed, in order.
* Locals that the source leaves uninitialised (`struct passwd pwd`, `char buf[2048]`)
  are arguments holding their indeterminate initial contents.
-/

namespace Arch

/-- The NUL byte. -/
def NUL : Char := Char.ofNat 0

/-- Construction of a `std::string` from a `char*`: the bytes before the first NUL. -/
def cstr (p : List Char) : String :=
  String.mk (p.takeWhile (fun c => c != NUL))

/-- The expression `p[0]` on a `char*` pointing at a NUL-terminated string. -/
def firstByte (p : List Char) : Char :=
  match p with
  | [] => NUL
  | c :: _ => c

/-- The fields of `struct passwd` that the file reads. -/
structure passwd where
  pw_name : List Char
  pw_dir : List Char
deriving DecidableEq

/-- Calls into the operating system and warnings, as they are performed. -/
inductive Event where
  | getcwd (size : Nat)
  | getcwd_alloc
  | free
  | getenv (name : String)
  | getuid
  | geteuid
  | getpwuid_r (uid : Nat) (buflen : Nat)
  | getpwnam_r (name : List Char) (buflen : Nat)
  | readlink (path : String) (bufsiz : Nat)
  | warning (msg : String)
deriving DecidableEq

/-- The host environment: what each libc call answers.
`getcwd size` is `getcwd(space, size)` (`none` is a NULL return), `getcwd_alloc` is
`getcwd(NULL, 0)`, `getenv` is `none` for an unset variable, the two `getpw*_r`
oracles answer the return code and the record stored through the result pointer
(`none` is a NULL result pointer), `linkTarget` is the target of a symbolic link
(`none` when it cannot be read). -/
structure Host where
  getcwd : Nat → Option (List Char)
  getcwd_alloc : Option (List Char)
  getenv : String → Option (List Char)
  getuid : Nat
  geteuid : Nat
  getpwuid_r : Nat → Nat → Int × Option passwd
  getpwnam_r : List Char → Nat → Int × Option passwd
  linkTarget : String → Option (List Char)

/-- The warnings among a list of events, in order. -/
def warnings : List Event → List String
  | [] => []
  | Event.warning m :: es => m :: warnings es
  | _ :: es => warnings es

/-- Modelled from the spec: the macro ARCH_WARNING of pxr/base/arch/error.h, which
hands one non-fatal warning string to the diagnostic sink and returns. -/
def ARCH_WARNING (msg : String) : Event := Event.warning msg

/-- The function `ArchGetCwd` (lines 64-96), on the Linux/Darwin branch. -/
def ArchGetCwd (os : Host) : String × List Event :=
  match os.getcwd 4096 with
  | some space => (cstr space, [Event.getcwd 4096])
  | none =>
    match os.getcwd_alloc with
    | some buf => (cstr buf, [Event.getcwd 4096, Event.getcwd_alloc, Event.free])
    | none =>
      (".", [Event.getcwd 4096, Event.getcwd_alloc,
             ARCH_WARNING "can't determine working directory"])

/-- The lookup part of `ArchGetHomeDirectory` (lines 108-122): `pwd0` is the
indeterminate initial content of the local `pwd`, `tr` the calls made so far.
A record found is stored into `pwd`; a NULL result pointer leaves it as it was. -/
def homeLookup (os : Host) (pwd0 : passwd) (login : String) (tr : List Event) :
    String × List Event :=
  let call : (Int × Option passwd) × List Event :=
    if login.isEmpty then
      (os.getpwuid_r os.getuid 2048, [Event.getuid, Event.getpwuid_r os.getuid 2048])
    else
      (os.getpwnam_r login.data 2048, [Event.getpwnam_r login.data 2048])
  let result : Int := call.1.1
  let tmpPtr : Option passwd := call.1.2
  let pwd : passwd := tmpPtr.getD pwd0
  if result = 0 ∧ tmpPtr.isSome then (cstr pwd.pw_dir, tr ++ call.2)
  else ("", tr ++ call.2)

/-- The function `ArchGetHomeDirectory` (lines 98-123). -/
def ArchGetHomeDirectory (os : Host) (pwd0 : passwd) (login : String) :
    String × List Event :=
  if login.isEmpty then
    match os.getenv "HOME" with
    | some home =>
      if firstByte home != NUL then (cstr home, [Event.getenv "HOME"])
      else homeLookup os pwd0 login [Event.getenv "HOME"]
    | none => homeLookup os pwd0 login [Event.getenv "HOME"]
  else homeLookup os pwd0 login []

/-- The array `envVarNames` of `ArchGetUserName` (line 128). -/
def envVarNames : List String := ["LOGNAME", "USER", "LNAME", "USERNAME"]

/-- The loop of `ArchGetUserName` (lines 129-134) over the remaining names: the value
returned from inside the loop, if any, and the `getenv` calls made. -/
def probeEnv (os : Host) : List String → Option String × List Event
  | [] => (none, [])
  | n :: ns =>
    match os.getenv n with
    | some user =>
      if firstByte user != NUL then (some (cstr user), [Event.getenv n])
      else ((probeEnv os ns).1, Event.getenv n :: (probeEnv os ns).2)
    | none => ((probeEnv os ns).1, Event.getenv n :: (probeEnv os ns).2)

/-- The function `ArchGetUserName` (lines 125-145): `pwd0` is the indeterminate
initial content of the local `pwd`. -/
def ArchGetUserName (os : Host) (pwd0 : passwd) : String × List Event :=
  match probeEnv os envVarNames with
  | (some user, tr) => (user, tr)
  | (none, tr) =>
    let call : Int × Option passwd := os.getpwuid_r os.geteuid 2048
    let resultPwd : Option passwd := call.2
    let pwd : passwd := resultPwd.getD pwd0
    let tr2 : List Event := tr ++ [Event.geteuid, Event.getpwuid_r os.geteuid 2048]
    if call.1 = 0 then (cstr pwd.pw_name, tr2) else ("", tr2)

/-- The libc call `readlink(path, buf, bufsiz)` after POSIX: on failure it returns -1
and leaves the buffer alone; on success it copies the link target, cut to `bufsiz`
bytes and without a terminator, to the start of the buffer and returns the number of
bytes copied. -/
def readlink (os : Host) (path : String) (buf : List Char) (bufsiz : Nat) :
    Int × List Char :=
  match os.linkTarget path with
  | none => (-1, buf)
  | some t =>
    (((t.take bufsiz).length : Nat), t.take bufsiz ++ buf.drop (t.take bufsiz).length)

/-- The assignment `buf[i] = c`; `none` when the index is outside the array. -/
def store (buf : List Char) (i : Int) (c : Char) : Option (List Char) :=
  if 0 ≤ i ∧ i.toNat < buf.length then some (buf.set i.toNat c) else none

/-- The value of `len` at line 160 of `ArchGetExecutablePath`, that is the index at
which the terminator is written, and the events up to there (lines 154-158). -/
def exeLen (os : Host) (buf0 : List Char) : Int × List Event :=
  let len : Int := (readlink os "/proc/self/exe" buf0 (2048 - 1)).1
  if len = -1 then
    (0, [Event.readlink "/proc/self/exe" (2048 - 1),
         ARCH_WARNING "Unable to read /proc/self/exe to obtain executable path"])
  else (len, [Event.readlink "/proc/self/exe" (2048 - 1)])

/-- The Linux branch of `ArchGetExecutablePath` (lines 153-161): `buf0` is the
indeterminate initial content of `char buf[2048]`; the result is `none` when the
write at line 160 falls outside the array. -/
def ArchGetExecutablePath (os : Host) (buf0 : List Char) :
    Option (String × List Event) :=
  let buf : List Char := (readlink os "/proc/self/exe" buf0 (2048 - 1)).2
  match store buf (exeLen os buf0).1 NUL with
  | some buf1 => some (cstr buf1, (exeLen os buf0).2)
  | none => none

/-- A host whose working directory is the path `P`: the fixed-size query succeeds
exactly when the path and its terminator fit the buffer, the allocating query
always succeeds. -/
def cwdHost (P : List Char) : Host where
  getcwd := fun size => if P.length + 1 ≤ size then some P else none
  getcwd_alloc := some P
  getenv := fun _ => none
  getuid := 0
  geteuid := 0
  getpwuid_r := fun _ _ => (0, none)
  getpwnam_r := fun _ _ => (0, none)
  linkTarget := fun _ => none

/-- A host with a small identity database: HOME is "/env/home", USER is "bob",
LOGNAME is "alice", user id 1000 has the record ("carol", "/home/carol"), and the
by-name lookup knows "carol" only. -/
def sampleHost : Host where
  getcwd := fun _ => some "/work".data
  getcwd_alloc := some "/work".data
  getenv := fun n =>
    if n = "HOME" then some "/env/home".data
    else if n = "LOGNAME" then some "alice".data
    else if n = "USER" then some "bob".data
    else none
  getuid := 1000
  geteuid := 0
  getpwuid_r := fun uid _ =>
    if uid = 1000 then (0, some ⟨"carol".data, "/home/carol".data⟩) else (0, none)
  getpwnam_r := fun name _ =>
    if name = "carol".data then (0, some ⟨"carol".data, "/home/carol".data⟩) else (0, none)
  linkTarget := fun _ => some "/usr/bin/usdview".data

/-- A host where none of the four variables is set and the effective user id 12345
has no record: the lookup returns 0 and a NULL result pointer. -/
def noRecordHost : Host where
  getcwd := fun _ => some "/work".data
  getcwd_alloc := some "/work".data
  getenv := fun _ => none
  getuid := 12345
  geteuid := 12345
  getpwuid_r := fun _ _ => (0, none)
  getpwnam_r := fun _ _ => (0, none)
  linkTarget := fun _ => some "/usr/bin/usdview".data

/-- A host where LOGNAME is set to the empty string, USER is unset, LNAME is "lee"
and USERNAME is "zed"; its identity database records "carol" for every user id. -/
def skipHost : Host where
  getcwd := fun _ => some "/work".data
  getcwd_alloc := some "/work".data
  getenv := fun n =>
    if n = "LOGNAME" then some []
    else if n = "LNAME" then some "lee".data
    else if n = "USERNAME" then some "zed".data
    else none
  getuid := 1000
  geteuid := 1000
  getpwuid_r := fun _ _ => (0, some ⟨"carol".data, "/home/carol".data⟩)
  getpwnam_r := fun _ _ => (0, none)
  linkTarget := fun _ => some "/usr/bin/usdview".data

/-! ## Facts about C strings -/

theorem firstByte_ne_iff (p : List Char) : (firstByte p != NUL) = true ↔ cstr p ≠ "" := by
  cases p with
  | nil => simp [firstByte, cstr]
  | cons c cs =>
    simp only [firstByte, cstr, List.takeWhile]
    by_cases h : c = NUL
    · subst h
      simp
    · have : (c != NUL) = true := by simpa using h
      simp [this]
      intro h2
      have := congrArg String.data h2
      simp at this

theorem cstr_of_no_nul (p : List Char) (h : ∀ c ∈ p, c ≠ NUL) : cstr p = String.mk p := by
  unfold cstr
  congr 1
  rw [List.takeWhile_eq_self_iff]
  intro c hc
  simpa using h c hc

theorem cstr_append_nul (a r : List Char) : cstr (a ++ NUL :: r) = cstr a := by
  unfold cstr
  congr 1
  induction a with
  | nil => simp [List.takeWhile]
  | cons c cs ih =>
    simp only [List.cons_append, List.takeWhile]
    cases (c != NUL) <;> simp [ih]

theorem cstr_length_le (p : List Char) : (cstr p).length ≤ p.length := by
  unfold cstr
  exact (List.takeWhile_sublist _).length_le

/-! ## ArchGetCwd -/

/-- Claim C6: `ArchGetCwd` returns the path of the 4096-byte query when that query
succeeds, making no further call; returns the path of the allocating query, with no
warning, when the first fails and the second succeeds; and emits the single warning
"can't determine working directory" together with the result "." exactly when both
queries fail.  The function is total: it produces a result in all three cases. -/
theorem ArchGetCwd_chain (os : Host) :
    (∀ p, os.getcwd 4096 = some p →
        ArchGetCwd os = (cstr p, [Event.getcwd 4096])) ∧
    (∀ q, os.getcwd 4096 = none → os.getcwd_alloc = some q →
        (ArchGetCwd os).1 = cstr q ∧ warnings (ArchGetCwd os).2 = []) ∧
    (os.getcwd 4096 = none → os.getcwd_alloc = none →
        (ArchGetCwd os).1 = "." ∧
        warnings (ArchGetCwd os).2 = ["can't determine working directory"]) ∧
    (warnings (ArchGetCwd os).2 ≠ [] ↔
        (os.getcwd 4096 = none ∧ os.getcwd_alloc = none)) := by
  refine ⟨?_, ?_, ?_, ?_⟩
  · intro p hp
    simp [ArchGetCwd, hp]
  · intro q h1 h2
    simp [ArchGetCwd, h1, h2, warnings]
  · intro h1 h2
    simp [ArchGetCwd, h1, h2, warnings, ARCH_WARNING]
  · cases h1 : os.getcwd 4096 with
    | some p => simp [ArchGetCwd, h1, warnings]
    | none =>
      cases h2 : os.getcwd_alloc with
      | some q => simp [ArchGetCwd, h1, h2, warnings]
      | none => simp [ArchGetCwd, h1, h2, warnings, ARCH_WARNING]

/-- The chain of claim C6 on a host where both queries fail. -/
theorem ArchGetCwd_chain_witness :
    (ArchGetCwd { cwdHost [] with getcwd := fun _ => none, getcwd_alloc := none }).1 = "." ∧
    warnings (ArchGetCwd
      { cwdHost [] with getcwd := fun _ => none, getcwd_alloc := none }).2 =
      ["can't determine working directory"] :=
  (ArchGetCwd_chain
    { cwdHost [] with getcwd := fun _ => none, getcwd_alloc := none }).2.2.1 rfl rfl

/-- Claim C8: on a host whose fixed query succeeds exactly when the path and its
terminator fit the buffer and whose allocating query always succeeds, `ArchGetCwd`
returns every NUL-free working-directory path `P` whole and without a warning, and
it makes the allocating query exactly when `P` has 4096 bytes or more. -/
theorem ArchGetCwd_boundary (os : Host) (P : List Char)
    (hP : ∀ c ∈ P, c ≠ NUL)
    (hfix : ∀ size, os.getcwd size = if P.length + 1 ≤ size then some P else none)
    (hdyn : os.getcwd_alloc = some P) :
    (ArchGetCwd os).1 = String.mk P ∧
    warnings (ArchGetCwd os).2 = [] ∧
    (Event.getcwd_alloc ∈ (ArchGetCwd os).2 ↔ 4096 ≤ P.length) := by
  by_cases h : P.length + 1 ≤ 4096
  · have h1 : os.getcwd 4096 = some P := by rw [hfix]; simp [h]
    have h3 : ¬ 4096 ≤ P.length := by omega
    simp [ArchGetCwd, h1, warnings, cstr_of_no_nul P hP, h3]
  · have h1 : os.getcwd 4096 = none := by rw [hfix]; simp [h]
    have h3 : 4096 ≤ P.length := by omega
    simp [ArchGetCwd, h1, hdyn, warnings, cstr_of_no_nul P hP, h3]

/-- Claim C8 at a path of exactly 4096 bytes, which the fixed buffer cannot hold. -/
theorem ArchGetCwd_boundary_witness :
    (ArchGetCwd (cwdHost (List.replicate 4096 (Char.ofNat 97)))).1 =
      String.mk (List.replicate 4096 (Char.ofNat 97)) ∧
    warnings (ArchGetCwd (cwdHost (List.replicate 4096 (Char.ofNat 97)))).2 = [] ∧
    (Event.getcwd_alloc ∈ (ArchGetCwd (cwdHost (List.replicate 4096 (Char.ofNat 97)))).2 ↔
      4096 ≤ (List.replicate 4096 (Char.ofNat 97)).length) :=
  ArchGetCwd_boundary (cwdHost (List.replicate 4096 (Char.ofNat 97)))
    (List.replicate 4096 (Char.ofNat 97))
    (by
      intro c hc
      rw [List.eq_of_mem_replicate hc]
      decide)
    (fun _ => by simp only [cwdHost]) (by simp only [cwdHost])

/-! ## ArchGetHomeDirectory -/

/-- The lookup of `ArchGetHomeDirectory` never reads the initial content of `pwd`. -/
theorem homeLookup_eq (os : Host) (pwd0 : passwd) (login : String) (tr : List Event) :
    homeLookup os pwd0 login tr =
      if login.isEmpty then
        (if (os.getpwuid_r os.getuid 2048).1 = 0 then
            (match (os.getpwuid_r os.getuid 2048).2 with
              | some r => cstr r.pw_dir
              | none => "")
          else "",
          tr ++ [Event.getuid, Event.getpwuid_r os.getuid 2048])
      else
        (if (os.getpwnam_r login.data 2048).1 = 0 then
            (match (os.getpwnam_r login.data 2048).2 with
              | some r => cstr r.pw_dir
              | none => "")
          else "",
          tr ++ [Event.getpwnam_r login.data 2048]) := by
  unfold homeLookup
  by_cases hl : login.isEmpty = true
  · simp only [hl, if_true]
    by_cases h0 : (os.getpwuid_r os.getuid 2048).1 = 0
    · cases h2 : (os.getpwuid_r os.getuid 2048).2 <;> simp [h0, h2]
    · simp [h0]
  · simp only [hl]
    by_cases h0 : (os.getpwnam_r login.data 2048).1 = 0
    · cases h2 : (os.getpwnam_r login.data 2048).2 <;> simp [h0, h2]
    · simp [h0]

/-- Claim C1: when HOME is set to a non-empty value, `ArchGetHomeDirectory` with the
empty login returns that value, whatever the identity database answers, and the only
call it makes is the read of HOME. -/
theorem ArchGetHomeDirectory_env (os : Host) (pwd0 : passwd) (home : List Char)
    (hset : os.getenv "HOME" = some home) (hne : cstr home ≠ "") :
    ArchGetHomeDirectory os pwd0 "" = (cstr home, [Event.getenv "HOME"]) := by
  have hb : (firstByte home != NUL) = true := (firstByte_ne_iff home).2 hne
  have he : ("" : String).isEmpty = true := by decide
  simp only [ArchGetHomeDirectory, he, hset, hb, if_true]

/-- Claim C1 on the sample host, whose database records another home directory. -/
theorem ArchGetHomeDirectory_env_witness :
    ArchGetHomeDirectory sampleHost ⟨[], []⟩ "" =
      (cstr "/env/home".data, [Event.getenv "HOME"]) :=
  ArchGetHomeDirectory_env sampleHost ⟨[], []⟩ "/env/home".data (by decide) (by decide)

/-- Claim C3: for a non-empty login `ArchGetHomeDirectory` makes the by-name lookup
and nothing else, so HOME plays no part: it returns the home-directory field of the
record when the lookup returns 0 with a record, and the empty string when the lookup
finds no record or returns an error; hosts that agree on the by-name lookup give the
same answer. -/
theorem ArchGetHomeDirectory_login (os : Host) (pwd0 : passwd) (login : String)
    (hlogin : login ≠ "") :
    (∀ r, os.getpwnam_r login.data 2048 = (0, some r) →
        ArchGetHomeDirectory os pwd0 login =
          (cstr r.pw_dir, [Event.getpwnam_r login.data 2048])) ∧
    ((os.getpwnam_r login.data 2048).2 = none →
        ArchGetHomeDirectory os pwd0 login = ("", [Event.getpwnam_r login.data 2048])) ∧
    ((os.getpwnam_r login.data 2048).1 ≠ 0 →
        ArchGetHomeDirectory os pwd0 login = ("", [Event.getpwnam_r login.data 2048])) ∧
    (∀ (os2 : Host) (pwd1 : passwd), os2.getpwnam_r = os.getpwnam_r →
        ArchGetHomeDirectory os2 pwd1 login = ArchGetHomeDirectory os pwd0 login) := by
  have hl : ¬ login.isEmpty = true := fun h => hlogin ((String.isEmpty_iff login).1 h)
  have key : ∀ (o : Host) (g : passwd), ArchGetHomeDirectory o g login =
      (if (o.getpwnam_r login.data 2048).1 = 0 then
          (match (o.getpwnam_r login.data 2048).2 with
            | some r => cstr r.pw_dir
            | none => "")
        else "",
        [Event.getpwnam_r login.data 2048]) := by
    intro o g
    simp only [ArchGetHomeDirectory, homeLookup_eq, hl]
    simp
  refine ⟨?_, ?_, ?_, ?_⟩
  · intro r hr
    rw [key, hr]
    simp
  · intro hr
    rw [key, hr]
    simp
  · intro hr
    rw [key]
    simp [hr]
  · intro os2 pwd1 h
    rw [key, key, h]

/-- Claim C3 on the sample host: the login "carol" has a record, while HOME holds
another directory. -/
theorem ArchGetHomeDirectory_login_witness :
    ArchGetHomeDirectory sampleHost ⟨[], []⟩ "carol" =
      (cstr "/home/carol".data, [Event.getpwnam_r "carol".data 2048]) :=
  (ArchGetHomeDirectory_login sampleHost ⟨[], []⟩ "carol" (by decide)).1
    ⟨"carol".data, "/home/carol".data⟩ (by decide)

/-- Claim C4: when HOME is unset or empty, `ArchGetHomeDirectory` with the empty login
looks up the real user id: it returns the home-directory field of the record when the
lookup returns 0 with a record, and the empty string when it finds no record or
returns an error; it emits no warning, and the effective user id plays no part. -/
theorem ArchGetHomeDirectory_uid (os : Host) (pwd0 : passwd)
    (hhome : ∀ home, os.getenv "HOME" = some home → cstr home = "") :
    (∀ r, os.getpwuid_r os.getuid 2048 = (0, some r) →
        (ArchGetHomeDirectory os pwd0 "").1 = cstr r.pw_dir) ∧
    ((os.getpwuid_r os.getuid 2048).2 = none →
        (ArchGetHomeDirectory os pwd0 "").1 = "") ∧
    ((os.getpwuid_r os.getuid 2048).1 ≠ 0 →
        (ArchGetHomeDirectory os pwd0 "").1 = "") ∧
    (ArchGetHomeDirectory os pwd0 "").2 =
      [Event.getenv "HOME", Event.getuid, Event.getpwuid_r os.getuid 2048] ∧
    warnings (ArchGetHomeDirectory os pwd0 "").2 = [] ∧
    (∀ e : Nat, ArchGetHomeDirectory { os with geteuid := e } pwd0 "" =
        ArchGetHomeDirectory os pwd0 "") := by
  have he : ("" : String).isEmpty = true := by decide
  have key : ∀ (o : Host), (∀ home, o.getenv "HOME" = some home → cstr home = "") →
      ArchGetHomeDirectory o pwd0 "" =
      (if (o.getpwuid_r o.getuid 2048).1 = 0 then
          (match (o.getpwuid_r o.getuid 2048).2 with
            | some r => cstr r.pw_dir
            | none => "")
        else "",
        [Event.getenv "HOME", Event.getuid, Event.getpwuid_r o.getuid 2048]) := by
    intro o ho
    cases hg : o.getenv "HOME" with
    | none => simp [ArchGetHomeDirectory, homeLookup_eq, he, hg]
    | some home =>
      have hb : ¬ (firstByte home != NUL) = true := fun h =>
        (firstByte_ne_iff home).1 h (ho home hg)
      simp only [ArchGetHomeDirectory, homeLookup_eq, he, hg, hb]
      simp
  refine ⟨?_, ?_, ?_, ?_, ?_, ?_⟩
  · intro r hr
    rw [key os hhome, hr]
    simp
  · intro hr
    rw [key os hhome, hr]
    simp
  · intro hr
    rw [key os hhome]
    simp [hr]
  · rw [key os hhome]
  · rw [key os hhome]
    simp [warnings]
  · intro e
    rw [key os hhome, key { os with geteuid := e } hhome]

/-- Claim C4 on the sample host with HOME removed: the record of the real user id
1000 is used, not that of the effective user id 0. -/
theorem ArchGetHomeDirectory_uid_witness :
    (ArchGetHomeDirectory { sampleHost with getenv := fun _ => none } ⟨[], []⟩ "").1 =
      cstr "/home/carol".data :=
  (ArchGetHomeDirectory_uid { sampleHost with getenv := fun _ => none } ⟨[], []⟩
    (by intro home h; cases h)).1 ⟨"carol".data, "/home/carol".data⟩ (by decide)

/-! ## ArchGetUserName -/

/-- The loop returns at the first name whose variable is set and non-empty, having
read the variables before it and none after it. -/
theorem probeEnv_first (os : Host) (pre : List String) (n : String) (post : List String)
    (p : List Char)
    (hpre : ∀ m ∈ pre, ∀ q, os.getenv m = some q → cstr q = "")
    (hn : os.getenv n = some p) (hp : cstr p ≠ "") :
    probeEnv os (pre ++ n :: post) = (some (cstr p), (pre ++ [n]).map Event.getenv) := by
  induction pre with
  | nil =>
    have hb : (firstByte p != NUL) = true := (firstByte_ne_iff p).2 hp
    simp [probeEnv, hn, hb]
  | cons m ms ih =>
    have ih2 := ih (fun k hk => hpre k (List.mem_cons_of_mem _ hk))
    cases hg : os.getenv m with
    | none => simp [probeEnv, hg, ih2]
    | some q =>
      have hq : ¬ (firstByte q != NUL) = true := fun h =>
        (firstByte_ne_iff q).1 h (hpre m (List.mem_cons_self _ _) q hg)
      simp only [List.cons_append, probeEnv, hg, hq]
      simp [ih2]

/-- The loop falls through when every variable is unset or empty, having read all. -/
theorem probeEnv_none (os : Host) (names : List String)
    (h : ∀ m ∈ names, ∀ q, os.getenv m = some q → cstr q = "") :
    probeEnv os names = (none, names.map Event.getenv) := by
  induction names with
  | nil => simp [probeEnv]
  | cons m ms ih =>
    have ih2 := ih (fun k hk => h k (List.mem_cons_of_mem _ hk))
    cases hg : os.getenv m with
    | none => simp [probeEnv, hg, ih2]
    | some q =>
      have hq : ¬ (firstByte q != NUL) = true := fun hb =>
        (firstByte_ne_iff q).1 hb (h m (List.mem_cons_self _ _) q hg)
      simp only [probeEnv, hg, hq]
      simp [ih2]

/-- Claim C2: `ArchGetUserName` probes LOGNAME, USER, LNAME, USERNAME in this order
and returns the value of the first one that is set and non-empty, skipping those that
are unset or empty: LOGNAME when it is non-empty, whatever USER holds; else USER; else
LNAME; else USERNAME.  In each case it reads the variables up to the one returned and
makes no identity-database lookup. -/
theorem ArchGetUserName_env (os : Host) (pwd0 : passwd) :
    (∀ p, os.getenv "LOGNAME" = some p → cstr p ≠ "" →
        ArchGetUserName os pwd0 = (cstr p, [Event.getenv "LOGNAME"])) ∧
    (∀ p, (∀ q, os.getenv "LOGNAME" = some q → cstr q = "") →
        os.getenv "USER" = some p → cstr p ≠ "" →
        ArchGetUserName os pwd0 =
          (cstr p, [Event.getenv "LOGNAME", Event.getenv "USER"])) ∧
    (∀ p, (∀ q, os.getenv "LOGNAME" = some q → cstr q = "") →
        (∀ q, os.getenv "USER" = some q → cstr q = "") →
        os.getenv "LNAME" = some p → cstr p ≠ "" →
        ArchGetUserName os pwd0 =
          (cstr p, [Event.getenv "LOGNAME", Event.getenv "USER", Event.getenv "LNAME"])) ∧
    (∀ p, (∀ q, os.getenv "LOGNAME" = some q → cstr q = "") →
        (∀ q, os.getenv "USER" = some q → cstr q = "") →
        (∀ q, os.getenv "LNAME" = some q → cstr q = "") →
        os.getenv "USERNAME" = some p → cstr p ≠ "" →
        ArchGetUserName os pwd0 =
          (cstr p, [Event.getenv "LOGNAME", Event.getenv "USER", Event.getenv "LNAME",
            Event.getenv "USERNAME"])) := by
  refine ⟨?_, ?_, ?_, ?_⟩
  · intro p hn hp
    have h := probeEnv_first os [] "LOGNAME" ["USER", "LNAME", "USERNAME"] p
      (by intro m hm; cases hm) hn hp
    have hnames : envVarNames = [] ++ "LOGNAME" :: ["USER", "LNAME", "USERNAME"] := rfl
    unfold ArchGetUserName
    rw [hnames, h]
    rfl
  · intro p h1 hn hp
    have h := probeEnv_first os ["LOGNAME"] "USER" ["LNAME", "USERNAME"] p
      (by
        intro m hm q hq
        simp only [List.mem_singleton] at hm
        subst hm
        exact h1 q hq) hn hp
    have hnames : envVarNames = ["LOGNAME"] ++ "USER" :: ["LNAME", "USERNAME"] := rfl
    unfold ArchGetUserName
    rw [hnames, h]
    rfl
  · intro p h1 h2 hn hp
    have h := probeEnv_first os ["LOGNAME", "USER"] "LNAME" ["USERNAME"] p
      (by
        intro m hm q hq
        simp only [List.mem_cons, List.mem_singleton, List.not_mem_nil, or_false] at hm
        rcases hm with hm | hm
        · subst hm
          exact h1 q hq
        · subst hm
          exact h2 q hq) hn hp
    have hnames : envVarNames = ["LOGNAME", "USER"] ++ "LNAME" :: ["USERNAME"] := rfl
    unfold ArchGetUserName
    rw [hnames, h]
    rfl
  · intro p h1 h2 h3 hn hp
    have h := probeEnv_first os ["LOGNAME", "USER", "LNAME"] "USERNAME" [] p
      (by
        intro m hm q hq
        simp only [List.mem_cons, List.mem_singleton, List.not_mem_nil, or_false] at hm
        rcases hm with hm | hm | hm
        · subst hm
          exact h1 q hq
        · subst hm
          exact h2 q hq
        · subst hm
          exact h3 q hq) hn hp
    have hnames : envVarNames = ["LOGNAME", "USER", "LNAME"] ++ "USERNAME" :: [] := rfl
    unfold ArchGetUserName
    rw [hnames, h]
    rfl

/-- Claim C2 on two hosts: on the sample host LOGNAME is "alice" and USER is "bob",
and "alice" is returned; on the host with LOGNAME empty, USER unset, LNAME "lee" and
USERNAME "zed", the first two are skipped and "lee" is returned. -/
theorem ArchGetUserName_env_witness :
    ArchGetUserName sampleHost ⟨[], []⟩ = (cstr "alice".data, [Event.getenv "LOGNAME"]) ∧
    ArchGetUserName skipHost ⟨[], []⟩ =
      (cstr "lee".data,
        [Event.getenv "LOGNAME", Event.getenv "USER", Event.getenv "LNAME"]) :=
  ⟨(ArchGetUserName_env sampleHost ⟨[], []⟩).1 "alice".data (by decide) (by decide),
   (ArchGetUserName_env skipHost ⟨[], []⟩).2.2.1 "lee".data
     (fun q h => Option.some.inj h ▸ rfl)
     (fun q h => nomatch h)
     (by decide) (by decide)⟩

/-- When none of the four variables is set to a non-empty value, `ArchGetUserName`
looks up the effective user id; it returns the login-name field when the lookup
returns 0 with a record and the empty string when the lookup returns an error, with
no warning in either case. -/
theorem ArchGetUserName_lookup (os : Host) (pwd0 : passwd)
    (henv : ∀ m ∈ envVarNames, ∀ q, os.getenv m = some q → cstr q = "") :
    (∀ r, os.getpwuid_r os.geteuid 2048 = (0, some r) →
        (ArchGetUserName os pwd0).1 = cstr r.pw_name) ∧
    ((os.getpwuid_r os.geteuid 2048).1 ≠ 0 → (ArchGetUserName os pwd0).1 = "") ∧
    ((os.getpwuid_r os.geteuid 2048) = (0, none) →
        (ArchGetUserName os pwd0).1 = cstr pwd0.pw_name) ∧
    (ArchGetUserName os pwd0).2 =
      envVarNames.map Event.getenv ++ [Event.geteuid, Event.getpwuid_r os.geteuid 2048] := by
  unfold ArchGetUserName
  rw [probeEnv_none os envVarNames henv]
  refine ⟨?_, ?_, ?_, ?_⟩
  · intro r hr
    simp [hr]
  · intro hr
    simp [hr]
  · intro hr
    simp [hr]
  · by_cases h0 : (os.getpwuid_r os.geteuid 2048).1 = 0 <;> simp [h0]

/-- Claim C5, the code at the failing input: no variable is set, the lookup for the
effective user id returns 0 without a record, and `ArchGetUserName` returns what the
uninitialised `pwd.pw_name` happens to hold (here "junk"), not the empty string. -/
theorem ArchGetUserName_no_record :
    (ArchGetUserName noRecordHost ⟨"junk".data, []⟩).1 = "junk" ∧
    (ArchGetUserName noRecordHost ⟨"junk".data, []⟩).1 ≠ "" := by
  decide

/-- Claim C9, the code at the failing input: on one and the same host, two calls of
`ArchGetUserName` that find different leftovers in the uninitialised `pwd` return
different strings. -/
theorem ArchGetUserName_not_determined :
    (ArchGetUserName noRecordHost ⟨"junk".data, []⟩).1 ≠
      (ArchGetUserName noRecordHost ⟨"other".data, []⟩).1 := by
  decide

/-! ## ArchGetExecutablePath -/

theorem set_append_length (a b : List Char) (x : Char) :
    (a ++ b).set a.length x = a ++ b.set 0 x := by
  induction a with
  | nil => simp
  | cons c cs ih => simp [ih]

/-- When the link cannot be read, the terminator goes to index 0 and the result is
empty, after one warning. -/
theorem exe_unreadable (os : Host) (buf0 : List Char) (hb : buf0.length = 2048)
    (hnone : os.linkTarget "/proc/self/exe" = none) :
    ArchGetExecutablePath os buf0 =
      some ("", [Event.readlink "/proc/self/exe" 2047,
        Event.warning "Unable to read /proc/self/exe to obtain executable path"]) := by
  cases buf0 with
  | nil => simp at hb
  | cons c cs =>
    have h := cstr_append_nul [] cs
    simp only [List.nil_append] at h
    simp [ArchGetExecutablePath, exeLen, readlink, hnone, store, ARCH_WARNING, h]
    simp [cstr]

/-- When the link is read, the terminator goes right after the bytes copied and the
result is the C string held by the first 2047 bytes of the target, with no warning. -/
theorem exe_readable (os : Host) (buf0 : List Char) (hb : buf0.length = 2048)
    (t : List Char) (ht : os.linkTarget "/proc/self/exe" = some t) :
    ArchGetExecutablePath os buf0 =
      some (cstr (t.take 2047), [Event.readlink "/proc/self/exe" 2047]) := by
  have hk : (t.take 2047).length ≤ 2047 := by simp
  have hne : ¬ (((t.take 2047).length : Nat) : Int) = -1 := by omega
  have hdrop : (buf0.drop (t.take 2047).length).length = 2048 - (t.take 2047).length := by
    simp [hb]
  have hlen : (t.take 2047 ++ buf0.drop (t.take 2047).length).length = 2048 := by
    rw [List.length_append, hdrop]
    omega
  have hset : (t.take 2047 ++ buf0.drop (t.take 2047).length).set (t.take 2047).length NUL
      = t.take 2047 ++ NUL :: (buf0.drop (t.take 2047).length).tail := by
    rw [set_append_length]
    cases hd : buf0.drop (t.take 2047).length with
    | nil =>
      rw [hd] at hdrop
      simp at hdrop
      omega
    | cons c cs => simp
  have hidx : (0 : Int) ≤ (((t.take 2047).length : Nat) : Int) ∧
      ((((t.take 2047).length : Nat) : Int)).toNat <
        (t.take 2047 ++ buf0.drop (t.take 2047).length).length := by
    rw [hlen]
    constructor
    · omega
    · simp only [Int.toNat_ofNat]
      omega
  have hstore : store (t.take 2047 ++ buf0.drop (t.take 2047).length)
      (((t.take 2047).length : Nat) : Int) NUL =
      some (t.take 2047 ++ NUL :: (buf0.drop (t.take 2047).length).tail) := by
    unfold store
    rw [if_pos hidx, Int.toNat_ofNat, hset]
  simp only [ArchGetExecutablePath, exeLen, readlink, ht, Nat.add_one_sub_one, hne, if_false,
    hstore, cstr_append_nul]

/-- Claim C7: on the Linux branch, when `readlink` returns -1 `ArchGetExecutablePath`
emits one warning and returns the empty string; when the link is read and its target
is NUL-free and at most 2047 bytes long it returns that target and emits no warning. -/
theorem ArchGetExecutablePath_read (os : Host) (buf0 : List Char)
    (hb : buf0.length = 2048) :
    ((readlink os "/proc/self/exe" buf0 2047).1 = -1 →
        ArchGetExecutablePath os buf0 =
          some ("", [Event.readlink "/proc/self/exe" 2047,
            Event.warning "Unable to read /proc/self/exe to obtain executable path"])) ∧
    (∀ t, os.linkTarget "/proc/self/exe" = some t → (∀ c ∈ t, c ≠ NUL) →
        t.length ≤ 2047 →
        ArchGetExecutablePath os buf0 =
          some (String.mk t, [Event.readlink "/proc/self/exe" 2047])) := by
  constructor
  · intro h
    cases ht : os.linkTarget "/proc/self/exe" with
    | none => exact exe_unreadable os buf0 hb ht
    | some t =>
      simp only [readlink, ht] at h
      omega
  · intro t ht hnul hlen
    rw [exe_readable os buf0 hb t ht, List.take_of_length_le hlen, cstr_of_no_nul t hnul]

/-- Claim C7 on the sample host, whose link target is "/usr/bin/usdview". -/
theorem ArchGetExecutablePath_read_witness :
    ArchGetExecutablePath sampleHost (List.replicate 2048 (Char.ofNat 120)) =
      some (String.mk "/usr/bin/usdview".data, [Event.readlink "/proc/self/exe" 2047]) :=
  (ArchGetExecutablePath_read sampleHost (List.replicate 2048 (Char.ofNat 120))
    (List.length_replicate _ _)).2 "/usr/bin/usdview".data rfl (by decide) (by decide)

/-- Claim C10: on the Linux branch, `readlink` returns -1 or a count between 0 and
2047; the index at which the terminator is written lies inside the 2048-byte
buffer, so the write succeeds; the returned string has at most 2047 bytes; and for a
link target longer than 2047 bytes the result is the C string held by its first 2047
bytes, with no warning. -/
theorem ArchGetExecutablePath_bounds (os : Host) (buf0 : List Char)
    (hb : buf0.length = 2048) :
    ((readlink os "/proc/self/exe" buf0 2047).1 = -1 ∨
      (0 ≤ (readlink os "/proc/self/exe" buf0 2047).1 ∧
        (readlink os "/proc/self/exe" buf0 2047).1 ≤ 2047)) ∧
    (0 ≤ (exeLen os buf0).1 ∧ (exeLen os buf0).1 < 2048) ∧
    (∃ s tr, ArchGetExecutablePath os buf0 = some (s, tr) ∧ s.length ≤ 2047) ∧
    (∀ t, os.linkTarget "/proc/self/exe" = some t → 2047 < t.length →
        ArchGetExecutablePath os buf0 =
          some (cstr (t.take 2047), [Event.readlink "/proc/self/exe" 2047]) ∧
        warnings [Event.readlink "/proc/self/exe" 2047] = []) := by
  cases ht : os.linkTarget "/proc/self/exe" with
  | none =>
    refine ⟨?_, ?_, ?_, ?_⟩
    · simp [readlink, ht]
    · simp [exeLen, readlink, ht]
    · exact ⟨_, _, exe_unreadable os buf0 hb ht, by decide⟩
    · intro t h
      cases h
  | some t =>
    have hk : (t.take 2047).length ≤ 2047 := by simp
    have hne : ¬ (((t.take 2047).length : Nat) : Int) = -1 := by omega
    refine ⟨?_, ?_, ?_, ?_⟩
    · right
      simp only [readlink, ht]
      omega
    · simp only [exeLen, readlink, ht, Nat.add_one_sub_one, hne, if_false]
      omega
    · refine ⟨_, _, exe_readable os buf0 hb t ht, ?_⟩
      exact le_trans (cstr_length_le _) hk
    · intro t2 h2 _
      cases h2
      exact ⟨exe_readable os buf0 hb t ht, rfl⟩

/-- Claim C10 on a host whose link target has 3000 bytes. -/
theorem ArchGetExecutablePath_bounds_witness :
    ∃ s tr,
      ArchGetExecutablePath
        { sampleHost with linkTarget := fun _ => some (List.replicate 3000 (Char.ofNat 97)) }
        (List.replicate 2048 (Char.ofNat 120)) = some (s, tr) ∧ s.length ≤ 2047 :=
  (ArchGetExecutablePath_bounds
    { sampleHost with linkTarget := fun _ => some (List.replicate 3000 (Char.ofNat 97)) }
    (List.replicate 2048 (Char.ofNat 120)) (List.length_replicate _ _)).2.2.1

/-! ## Dependence on uninitialised locals -/

/-- The result of `ArchGetHomeDirectory` does not depend on what its local `pwd`
held before the lookup. -/
theorem ArchGetHomeDirectory_stack_indep (os : Host) (g1 g2 : passwd) (login : String) :
    ArchGetHomeDirectory os g1 login = ArchGetHomeDirectory os g2 login := by
  simp only [ArchGetHomeDirectory, homeLookup_eq]

/-- The result of `ArchGetExecutablePath` does not depend on what its local `buf`
held before the read. -/
theorem ArchGetExecutablePath_stack_indep (os : Host) (b1 b2 : List Char)
    (h1 : b1.length = 2048) (h2 : b2.length = 2048) :
    ArchGetExecutablePath os b1 = ArchGetExecutablePath os b2 := by
  cases ht : os.linkTarget "/proc/self/exe" with
  | none => rw [exe_unreadable os b1 h1 ht, exe_unreadable os b2 h2 ht]
  | some t => rw [exe_readable os b1 h1 t ht, exe_readable os b2 h2 t ht]

/-- The result of `ArchGetUserName` does not depend on what its local `pwd` held
before the lookup, unless the lookup is reached and returns 0 without a record. -/
theorem ArchGetUserName_stack_indep (os : Host) (g1 g2 : passwd)
    (h : (probeEnv os envVarNames).1 = none →
      os.getpwuid_r os.geteuid 2048 ≠ (0, none)) :
    ArchGetUserName os g1 = ArchGetUserName os g2 := by
  unfold ArchGetUserName
  cases hp : probeEnv os envVarNames with
  | mk v tr =>
    cases v with
    | some user => rfl
    | none =>
      have h3 := h (by rw [hp])
      cases hq : os.getpwuid_r os.geteuid 2048 with
      | mk rc res =>
        cases res with
        | some r => simp
        | none =>
          have hrc : rc ≠ 0 := by
            intro h0
            apply h3
            rw [hq, h0]
          simp [hrc]

end Arch
